import Mathlib

/-!
Verification of the three-way feature-list merge in `umap/utils.py`
(`merge_features`, together with its error class `ConflictError`).

The Python source of the function under study is:

```
class ConflictError(ValueError):
    pass

def merge_features(reference: list, latest: list, incoming: list):
    """Finds the changes between reference and incoming, and reapplies
    them on top of latest."""
    if latest == incoming:
        return latest

    removed = [item for item in reference if item not in incoming]
    added = [item for item in incoming if item not in reference]

    # Ensure that items changed in the reference weren't also changed
    # in the latest.
    for item in removed:
        if item not in latest:
            raise ConflictError()

    merged = latest[:]

    # Reapply the changes on top of the latest.
    for item in removed:
        merged.delete(item)

    for item in added:
        merged.append(item)

    return merged
```

Note on `merged.delete(item)`: Python `list` objects have no method named
`delete` (the removal method is `list.remove`), so the first iteration of
the removal loop raises `AttributeError`.  The embedding below models this
faithfully: whenever `removed` is non-empty and the conflict check passed,
the function fails with `PyError.attributeError`.
-/

/-- The exceptions `merge_features` can raise: `ConflictError` (raised
explicitly by the conflict check) and `AttributeError` (raised by the
call `merged.delete(item)`, because Python lists have no `delete`
method). -/
inductive PyError where
  | conflict
  | attributeError
  deriving DecidableEq

variable {α : Type} [DecidableEq α]

/-- Shallow embedding of `merge_features` from `umap/utils.py`.

* `if latest == incoming: return latest` is the fast path.
* `removed`/`added` embed the two list comprehensions.
* The conflict loop raises `ConflictError` exactly when some element of
  `removed` is not in `latest`; since the loop has no other effect, it is
  embedded as `removed.any (fun item => item ∉ latest)`.
* `merged = latest[:]` copies `latest`; the removal loop then calls
  `merged.delete(item)` on the first element of `removed`, which raises
  `AttributeError` (lists have no `delete` method), so a non-empty
  `removed` fails here.  With `removed = []` the loop body never runs.
* The append loop turns `merged` into `latest ++ added`. -/
def merge_features (reference latest incoming : List α) :
    Except PyError (List α) :=
  if latest = incoming then
    .ok latest
  else
    let removed := reference.filter (fun item => item ∉ incoming)
    let added := incoming.filter (fun item => item ∉ reference)
    if removed.any (fun item => item ∉ latest) then
      .error .conflict
    else
      match removed with
      | _ :: _ => .error .attributeError
      | [] => .ok (latest ++ added)

/-- The `removed` delta of the merge: items of `reference` absent from
`incoming` (first list comprehension of the source). -/
def removedItems (reference incoming : List α) : List α :=
  reference.filter (fun item => item ∉ incoming)

/-- The `added` delta of the merge: items of `incoming` absent from
`reference` (second list comprehension of the source). -/
def addedItems (reference incoming : List α) : List α :=
  incoming.filter (fun item => item ∉ reference)

/-- Claim C3: `merge_features r l l` returns `l` unchanged and raises no
error, for any `r` — the fast path fires before any diff computation, even
when `r` contains items absent from `l`. -/
theorem merge_features_identity (r l : List α) :
    merge_features r l l = .ok l := by
  simp [merge_features]

/-- Witness for C3 at a concrete input where `r` has an item absent from
`l` (which would otherwise trigger the conflict check). -/
theorem merge_features_identity_witness :
    merge_features [0, 1, 2] [0, 2] [0, 2] = Except.ok [0, 2] :=
  merge_features_identity [0, 1, 2] [0, 2]

/-- Claim C6: when `incoming` equals `reference`, both deltas are empty,
so `merge_features r l r` returns `l` unchanged and raises no error. -/
theorem merge_features_noop_remote (r l : List α) :
    merge_features r l r = .ok l := by
  by_cases h : l = r
  · subst h; simp [merge_features]
  · have hrem : r.filter (fun item => !decide (item ∈ r)) = [] := by
      simp
    simp [merge_features, if_neg h, hrem]

/-- Witness for C6 at a concrete input with `l ≠ r`. -/
theorem merge_features_noop_remote_witness :
    merge_features [5, 6] [7] [5, 6] = Except.ok [7] :=
  merge_features_noop_remote [5, 6] [7]

/-- Helper: the four observable outcomes of `merge_features`, by the order
in which the source can return or raise. -/
theorem merge_features_characterization (r l i : List α) :
    merge_features r l i =
      if l = i then .ok l
      else if (removedItems r i).any (fun item => item ∉ l) = true then
        .error .conflict
      else if removedItems r i = [] then .ok (l ++ addedItems r i)
      else .error .attributeError := by
  by_cases hne : l = i
  · simp [merge_features, hne]
  · simp only [merge_features, removedItems, addedItems, if_neg hne]
    cases hrm : r.filter (fun item => decide (item ∉ i)) with
    | nil => simp [hrm]
    | cons x xs =>
      simp only [hrm]
      by_cases ha : ((x :: xs).any fun item => decide (item ∉ l)) = true
      · rw [if_pos ha, if_pos ha]
      · rw [if_neg ha, if_neg ha, if_neg (List.cons_ne_nil x xs)]

/-- Helper: the conflict-loop test, phrased as an existential over the raw
inputs. -/
theorem any_removed_iff (r i l : List α) :
    (removedItems r i).any (fun item => item ∉ l) = true ↔
      ∃ x, x ∈ r ∧ x ∉ i ∧ x ∉ l := by
  simp [removedItems, List.any_eq_true, and_assoc]

/-- Claim C1: every normal return with `latest ≠ incoming` happens with an
empty `removed` delta, and the result is exactly the items of `latest` not
in `removed` (in `latest` order) followed by the `added` items (in
`incoming` order). -/
theorem merge_features_ok_shape (r l i res : List α) (hne : l ≠ i)
    (h : merge_features r l i = .ok res) :
    removedItems r i = [] ∧
    res = l.filter (fun x => x ∉ removedItems r i) ++ addedItems r i := by
  rw [merge_features_characterization, if_neg hne] at h
  split at h
  · cases h
  · split at h
    · next hnil =>
      injection h with h
      subst h
      refine ⟨hnil, ?_⟩
      simp [hnil]
    · cases h

/-- Witness for C1: the pure-addition example
`merge_features [A,B] [A,B,C] [A,B,D] = [A,B,C,D]` with `A,B,C,D`
rendered as `0,1,2,3`. -/
theorem merge_features_ok_shape_witness :
    removedItems [0, 1] [0, 1, 3] = ([] : List Nat) ∧
    [0, 1, 2, 3] =
      List.filter (fun x => x ∉ removedItems [0, 1] [0, 1, 3]) [0, 1, 2] ++
        addedItems [0, 1] [0, 1, 3] :=
  merge_features_ok_shape [0, 1] [0, 1, 2] [0, 1, 3] [0, 1, 2, 3]
    (by decide) rfl

/-- Counterexample to Claim C2 as stated: its "in particular" example
`merge_features [A,B,C] [A,C] [A,C]` (with `A,B,C` rendered `4,5,6`) has
`latest = incoming`, so the fast path returns `latest` and no conflict
error is raised. -/
theorem merge_features_conflict_example_false :
    merge_features [4, 5, 6] [4, 6] [4, 6] = Except.ok [4, 6] := rfl

/-- Claim C2 amended: with `latest ≠ incoming`, the merge fails with the
conflict error exactly when some item of `reference` is absent from both
`incoming` and `latest`; in particular
`merge_features [A,B,C] [A,C] [A,C,D]` raises the conflict error (see the
witness). -/
theorem merge_features_conflict_iff (r l i : List α) (hne : l ≠ i) :
    merge_features r l i = .error .conflict ↔
      ∃ x, x ∈ r ∧ x ∉ i ∧ x ∉ l := by
  rw [merge_features_characterization, if_neg hne, ← any_removed_iff r i l]
  by_cases hc : (removedItems r i).any (fun item => item ∉ l) = true
  · rw [if_pos hc]
    exact iff_of_true rfl hc
  · rw [if_neg hc]
    refine iff_of_false ?_ hc
    split <;> intro h <;> simp at h

/-- Witness for the amended C2: `merge_features [A,B,C] [A,C] [A,C,D]`
(rendered `0,1,2`, `D = 3`) raises the conflict error — the item `1` is
in `reference` but in neither `incoming` nor `latest`. -/
theorem merge_features_conflict_iff_witness :
    merge_features [0, 1, 2] [0, 2] [0, 2, 3] = Except.error PyError.conflict :=
  (merge_features_conflict_iff [0, 1, 2] [0, 2] [0, 2, 3] (by decide)).mpr
    ⟨1, by decide, by decide, by decide⟩

/-- Claim C4 (code divergence): at `reference = [0,1,2]`,
`latest = [0,1,2]`, `incoming = [0,2]` the conflict check passes (the
removed item `1` is in `latest`), yet the function does not return a
merged sequence: `merged.delete(item)` raises `AttributeError`. -/
theorem merge_features_not_only_conflict :
    merge_features [0, 1, 2] [0, 1, 2] [0, 2] =
      Except.error PyError.attributeError := rfl

/-- Claim C5 (code divergence): on both removal examples of the spec —
`merge_features [A,B,C] [A,B,C] [A,C]` (rendered `0,1,2`) and
`merge_features [A,B] [A,B,X] [B]` (rendered `10,11,15`) — the code
raises `AttributeError` from `merged.delete(item)` instead of returning
`[A,C]` and `[B,X]`. -/
theorem merge_features_removal_attribute_error :
    merge_features [10, 11, 12] [10, 11, 12] [10, 12] =
        Except.error PyError.attributeError ∧
    merge_features [10, 11] [10, 11, 15] [11] =
        Except.error PyError.attributeError :=
  ⟨rfl, rfl⟩

/-- Claim C9: whenever `latest ≠ incoming`, the `removed` delta is
non-empty and every removed item is present in `latest` (so the conflict
check passes), the removal loop raises `AttributeError`, because Python
lists have no `delete` method. -/
theorem merge_features_delete_attr (r l i : List α) (hne : l ≠ i)
    (hrem : removedItems r i ≠ [])
    (hin : ∀ x ∈ removedItems r i, x ∈ l) :
    merge_features r l i = .error .attributeError := by
  rw [merge_features_characterization, if_neg hne]
  have hc : ¬((removedItems r i).any (fun item => item ∉ l) = true) := by
    intro hany
    rcases List.any_eq_true.mp hany with ⟨x, hx, hxl⟩
    exact absurd (hin x hx) (by simpa using hxl)
  rw [if_neg hc, if_neg hrem]

/-- Witness for C9 at `reference = [0,1]`, `latest = [1,0]`,
`incoming = [1]`: the removed item `0` is present in `latest`, and the
call fails with `AttributeError`. -/
theorem merge_features_delete_attr_witness :
    merge_features [0, 1] [1, 0] [1] = Except.error PyError.attributeError :=
  merge_features_delete_attr [0, 1] [1, 0] [1]
    (by decide) (by decide) (by decide)

/-- Claim C10: when the `removed` delta is empty and `latest ≠ incoming`,
the result is `latest` followed by every occurrence (multiplicity kept) of
the `incoming` items absent from `reference`, in `incoming` order. -/
theorem merge_features_added_multiplicity (r l i : List α) (hne : l ≠ i)
    (hrem : removedItems r i = []) :
    merge_features r l i = .ok (l ++ addedItems r i) := by
  rw [merge_features_characterization, if_neg hne]
  have hc : ¬((removedItems r i).any (fun item => item ∉ l) = true) := by
    simp [hrem]
  rw [if_neg hc, if_pos hrem]

/-- Witness for C10: `merge_features [] [A] [D, D] = [A, D, D]` with
`A = 0`, `D = 3` — the duplicate added item is appended twice. -/
theorem merge_features_added_multiplicity_witness :
    merge_features [] [0] [3, 3] = Except.ok [0, 3, 3] :=
  merge_features_added_multiplicity [] [0] [3, 3] (by decide) rfl

/-- Store-passing embedding of `merge_features` for the frame claim: the
three arguments live at addresses `ra`, `rl`, `ri` of a store `σ`, and
`merged = latest[:]` allocates a fresh list at address `fresh`.  Every
mutation of the source (the copy, the `append` loop) writes only to
`fresh`; the `delete` loop raises `AttributeError` before mutating
anything.  The result pairs the final store with either the raised error
or the address of the returned list (`rl` itself on the fast path, the
fresh copy otherwise). -/
def merge_features_state (ra rl ri fresh : Nat) (σ : Nat → List α) :
    (Nat → List α) × Except PyError Nat :=
  let reference := σ ra
  let latest := σ rl
  let incoming := σ ri
  if latest = incoming then (σ, .ok rl)
  else
    let removed := reference.filter (fun item => item ∉ incoming)
    let added := incoming.filter (fun item => item ∉ reference)
    if removed.any (fun item => item ∉ latest) then (σ, .error .conflict)
    else
      let σ₁ := Function.update σ fresh latest
      match removed with
      | _ :: _ => (σ₁, .error .attributeError)
      | [] => (Function.update σ₁ fresh (latest ++ added), .ok fresh)

/-- Claim C7: `merge_features` never mutates its arguments — whether it
returns a result or raises, the store still holds the original
`reference`, `latest` and `incoming` at their addresses, since the only
writes go to the fresh copy. -/
theorem merge_features_state_frame (ra rl ri fresh : Nat) (σ : Nat → List α)
    (ha : fresh ≠ ra) (hl : fresh ≠ rl) (hi : fresh ≠ ri) :
    (merge_features_state ra rl ri fresh σ).1 ra = σ ra ∧
    (merge_features_state ra rl ri fresh σ).1 rl = σ rl ∧
    (merge_features_state ra rl ri fresh σ).1 ri = σ ri := by
  have ha2 : ra ≠ fresh := Ne.symm ha
  have hl2 : rl ≠ fresh := Ne.symm hl
  have hi2 : ri ≠ fresh := Ne.symm hi
  simp only [merge_features_state]
  split
  · exact ⟨rfl, rfl, rfl⟩
  · split
    · exact ⟨rfl, rfl, rfl⟩
    · split <;>
        exact ⟨by simp [Function.update_noteq ha2],
               by simp [Function.update_noteq hl2],
               by simp [Function.update_noteq hi2]⟩

/-- Witness for C7 on a concrete store (`σ a = [a, 0]`) whose run reaches
the mutation branch: the three input addresses still hold their original
lists afterwards. -/
theorem merge_features_state_frame_witness :
    (merge_features_state 0 1 2 3 (fun a => [a, 0])).1 0 = [0, 0] ∧
    (merge_features_state 0 1 2 3 (fun a => [a, 0])).1 1 = [1, 0] ∧
    (merge_features_state 0 1 2 3 (fun a => [a, 0])).1 2 = [2, 0] :=
  merge_features_state_frame 0 1 2 3 (fun a => [a, 0])
    (by decide) (by decide) (by decide)

/-- Fuel-instrumented list comprehension: one unit of fuel per iterated
element, `none` when the fuel runs out. -/
def filterFuel (p : α → Bool) : Nat → List α → Option (List α × Nat)
  | fuel, [] => some ([], fuel)
  | 0, _ :: _ => none
  | fuel + 1, x :: xs =>
    match filterFuel p fuel xs with
    | none => none
    | some (ys, rest) => some (if p x then x :: ys else ys, rest)

/-- Fuel-instrumented conflict loop: iterates until the first hit (where
the source raises), one unit of fuel per iteration. -/
def anyFuel (p : α → Bool) : Nat → List α → Option (Bool × Nat)
  | fuel, [] => some (false, fuel)
  | 0, _ :: _ => none
  | fuel + 1, x :: xs => if p x then some (true, fuel) else anyFuel p fuel xs

/-- Fuel-instrumented append loop (`merged.append(item)` per element). -/
def appendLoopFuel : Nat → List α → List α → Option (List α × Nat)
  | fuel, merged, [] => some (merged, fuel)
  | 0, _, _ :: _ => none
  | fuel + 1, merged, x :: xs => appendLoopFuel fuel (merged ++ [x]) xs

omit [DecidableEq α] in
theorem filterFuel_spec (p : α → Bool) (l : List α) :
    ∀ fuel : Nat, l.length ≤ fuel →
      filterFuel p fuel l = some (l.filter p, fuel - l.length) := by
  induction l with
  | nil => intro fuel _; simp [filterFuel]
  | cons x xs ih =>
    intro fuel h
    cases fuel with
    | zero => simp at h
    | succ fuel =>
      have h2 : xs.length ≤ fuel := Nat.le_of_succ_le_succ h
      simp only [filterFuel, ih fuel h2, List.filter_cons, List.length_cons,
        Nat.succ_sub_succ]

omit [DecidableEq α] in
theorem anyFuel_spec (p : α → Bool) (l : List α) :
    ∀ fuel : Nat, l.length ≤ fuel →
      ∃ rest, anyFuel p fuel l = some (l.any p, rest) ∧
        fuel - l.length ≤ rest := by
  induction l with
  | nil => intro fuel _; exact ⟨fuel, by simp [anyFuel], Nat.sub_le _ _⟩
  | cons x xs ih =>
    intro fuel h
    cases fuel with
    | zero => simp at h
    | succ fuel =>
      have h2 : xs.length ≤ fuel := Nat.le_of_succ_le_succ h
      by_cases hp : p x = true
      · exact ⟨fuel, by simp [anyFuel, hp],
          by simp only [List.length_cons]; omega⟩
      · obtain ⟨rest, heq, hle⟩ := ih fuel h2
        refine ⟨rest, ?_, ?_⟩
        · simp [anyFuel, hp, heq, List.any_cons]
        · simp only [List.length_cons, Nat.succ_sub_succ]
          exact hle

omit [DecidableEq α] in
theorem appendLoopFuel_spec (xs : List α) :
    ∀ (fuel : Nat) (merged : List α), xs.length ≤ fuel →
      appendLoopFuel fuel merged xs = some (merged ++ xs, fuel - xs.length) := by
  induction xs with
  | nil => intro fuel merged _; simp [appendLoopFuel]
  | cons x xs ih =>
    intro fuel merged h
    cases fuel with
    | zero => simp at h
    | succ fuel =>
      have h2 : xs.length ≤ fuel := Nat.le_of_succ_le_succ h
      simp only [appendLoopFuel, ih fuel (merged ++ [x]) h2, List.length_cons,
        Nat.succ_sub_succ, List.append_assoc, List.singleton_append]

/-- Fuel-instrumented `merge_features`: every loop of the source charges
one unit of fuel per iteration; `none` means the fuel ran out before the
function finished. -/
def merge_features_fuel (fuel : Nat) (reference latest incoming : List α) :
    Option (Except PyError (List α)) :=
  if latest = incoming then some (.ok latest)
  else
    match filterFuel (fun item => item ∉ incoming) fuel reference with
    | none => none
    | some (removed, fuelA) =>
      match filterFuel (fun item => item ∉ reference) fuelA incoming with
      | none => none
      | some (added, fuelB) =>
        match anyFuel (fun item => item ∉ latest) fuelB removed with
        | none => none
        | some (true, _) => some (.error .conflict)
        | some (false, fuelC) =>
          match removed with
          | _ :: _ => some (.error .attributeError)
          | [] =>
            match appendLoopFuel fuelC latest added with
            | none => none
            | some (merged, _) => some (.ok merged)

/-- Claim C8: `merge_features` always terminates, and the total number of
loop iterations is linear in the input lengths — fuel
`2·|reference| + 2·|incoming|` always suffices for the fuel-instrumented
interpreter to finish, with the same outcome as the direct function. -/
theorem merge_features_fuel_spec (r l i : List α) (fuel : Nat)
    (h : 2 * r.length + 2 * i.length ≤ fuel) :
    merge_features_fuel fuel r l i = some (merge_features r l i) := by
  by_cases hne : l = i
  · simp [merge_features_fuel, merge_features, hne]
  · have hr : r.length ≤ fuel := by omega
    have hi2 : i.length ≤ fuel - r.length := by omega
    have hremlen := List.length_filter_le (fun item => decide (item ∉ i)) r
    have hrest0 :
        (r.filter (fun item => decide (item ∉ i))).length ≤
          fuel - r.length - i.length := by omega
    obtain ⟨rest, hany_eq, hrest⟩ :=
      anyFuel_spec (fun item => decide (item ∉ l))
        (r.filter (fun item => decide (item ∉ i)))
        (fuel - r.length - i.length) hrest0
    have haddlen := List.length_filter_le (fun item => decide (item ∉ r)) i
    have happend : (i.filter (fun item => decide (item ∉ r))).length ≤ rest := by
      omega
    rw [merge_features_characterization r l i, if_neg hne]
    simp only [merge_features_fuel, if_neg hne, removedItems, addedItems,
      filterFuel_spec (fun item => decide (item ∉ i)) r fuel hr,
      filterFuel_spec (fun item => decide (item ∉ r)) i (fuel - r.length) hi2,
      hany_eq]
    cases hany : (List.filter (fun item => decide (item ∉ i)) r).any
        (fun item => decide (item ∉ l)) with
    | true => simp [hany]
    | false =>
      cases hrm : List.filter (fun item => decide (item ∉ i)) r with
      | nil =>
        have happ := appendLoopFuel_spec
          (List.filter (fun item => decide (item ∉ r)) i) rest l happend
        simp only [decide_not] at happ
        simp [happ]
      | cons y ys => simp

/-- Witness for C8: with fuel `12 ≥ 2·2 + 2·2` the instrumented
interpreter finishes on a concrete input and agrees with the direct
function. -/
theorem merge_features_fuel_spec_witness :
    merge_features_fuel 12 [0, 1] [0] [2, 2] =
      some (merge_features [0, 1] [0] [2, 2]) :=
  merge_features_fuel_spec [0, 1] [0] [2, 2] 12 (by decide)
